import Mathlib

/-!
Verification of the restricted code-execution engine of
`mcp-server-for-aws` (`src/mcp_server_aws_resources/server.py`):
the `CodeExecutor` AST visitor and `AWSResourceQuerier.execute_query`.

The Python code is shallowly embedded: JSON documents and Python values
are inductive types, the statement shapes the validator inspects are an
inductive `Stmt`, and a submitted script is its parse outcome together
with an opaque execution behaviour (the semantics of `exec` on the
restricted namespace), which also records an observable effect trace
(number of SDK calls, modules loaded at runtime).  Python `set`
iteration order is unspecified, so `execute_query` is parametrised by an
enumeration oracle `SetEnum` producing some duplicate-free listing of a
finite set.
-/

/-- JSON documents, the codomain of `json.dumps`. -/
inductive Json where
| null : Json
| bool : Bool → Json
| num : Int → Json
| str : String → Json
| arr : List Json → Json
| obj : List (String × Json) → Json

/-- Python runtime values as far as `execute_query` inspects them:
`None`, JSON-like primitives and collections, and opaque objects
carrying their `str()` rendering and, optionally, the value their
`to_dict()` method returns (`Option.none` models absence of the
attribute, i.e. `hasattr(v, 'to_dict')` false). -/
inductive PyValue where
| none : PyValue
| bool : Bool → PyValue
| int : Int → PyValue
| str : String → PyValue
| list : List PyValue → PyValue
| dict : List (String × PyValue) → PyValue
| obj : String → Option PyValue → PyValue

/-- Escape a character sequence for inclusion in a JSON document (the
quote and backslash escapes `json.dumps` performs; control characters
are not modelled). -/
def escapeJsonChars : List Char → List Char
| [] => []
| c :: rest =>
    if c = '\\' then '\\' :: '\\' :: escapeJsonChars rest
    else if c = '"' then '\\' :: '"' :: escapeJsonChars rest
    else c :: escapeJsonChars rest

def escapeJson (s : String) : String := String.mk (escapeJsonChars s.data)

mutual

/-- `json.dumps` with its default separators. -/
def jsonDumps : Json → String
| Json.null => "null"
| Json.bool true => "true"
| Json.bool false => "false"
| Json.num n => toString n
| Json.str s => "\"" ++ escapeJson s ++ "\""
| Json.arr xs => "[" ++ jsonDumpsList xs ++ "]"
| Json.obj fs => "\x7b" ++ jsonDumpsFields fs ++ "\x7d"

def jsonDumpsList : List Json → String
| [] => ""
| [x] => jsonDumps x
| x :: y :: rest => jsonDumps x ++ ", " ++ jsonDumpsList (y :: rest)

def jsonDumpsFields : List (String × Json) → String
| [] => ""
| [f] => "\"" ++ escapeJson f.1 ++ "\": " ++ jsonDumps f.2
| f :: g :: rest =>
    "\"" ++ escapeJson f.1 ++ "\": " ++ jsonDumps f.2 ++ ", " ++
      jsonDumpsFields (g :: rest)

end

mutual

/-- `json.dumps(v, default=str)` applied to a Python value: JSON-like
values map to their JSON counterparts, and any other leaf is rendered
through `str` instead of failing the encode. -/
def dumpsDefaultStr : PyValue → Json
| PyValue.none => Json.null
| PyValue.bool b => Json.bool b
| PyValue.int n => Json.num n
| PyValue.str s => Json.str s
| PyValue.list xs => Json.arr (dumpsDefaultStrList xs)
| PyValue.dict fs => Json.obj (dumpsDefaultStrFields fs)
| PyValue.obj r _ => Json.str r

def dumpsDefaultStrList : List PyValue → List Json
| [] => []
| x :: rest => dumpsDefaultStr x :: dumpsDefaultStrList rest

def dumpsDefaultStrFields : List (String × PyValue) → List (String × Json)
| [] => []
| f :: rest => (f.1, dumpsDefaultStr f.2) :: dumpsDefaultStrFields rest

end

mutual

/-- `json.dumps(v)` without a `default` fallback: opaque leaves make the
whole encode fail (Python raises `TypeError`). -/
def dumpsStrict : PyValue → Option Json
| PyValue.none => Option.some Json.null
| PyValue.bool b => Option.some (Json.bool b)
| PyValue.int n => Option.some (Json.num n)
| PyValue.str s => Option.some (Json.str s)
| PyValue.list xs => (dumpsStrictList xs).map Json.arr
| PyValue.dict fs => (dumpsStrictFields fs).map Json.obj
| PyValue.obj _ _ => Option.none

def dumpsStrictList : List PyValue → Option (List Json)
| [] => Option.some []
| x :: rest =>
    match dumpsStrict x, dumpsStrictList rest with
    | Option.some j, Option.some js => Option.some (j :: js)
    | _, _ => Option.none

def dumpsStrictFields : List (String × PyValue) → Option (List (String × Json))
| [] => Option.some []
| f :: rest =>
    match dumpsStrict f.2, dumpsStrictFields rest with
    | Option.some j, Option.some js => Option.some ((f.1, j) :: js)
    | _, _ => Option.none

end

/-- The error envelope `json.dumps({"error": msg})`. -/
def mkError (msg : String) : String :=
  jsonDumps (Json.obj [("error", Json.str msg)])

/-- The normalisation `execute_query` performs on a successful non-None
result: apply `to_dict()` when the attribute is present, then encode
with `json.dumps(-, default=str)`. -/
def normalizeResult (v : PyValue) : Json :=
  match v with
  | PyValue.obj _ (Option.some d) => dumpsDefaultStr d
  | _ => dumpsDefaultStr v

mutual

/-- Embedding of JSON documents into Python values (the values a script
produces when it assigns a JSON-primitive-compatible result). -/
def ofJson : Json → PyValue
| Json.null => PyValue.none
| Json.bool b => PyValue.bool b
| Json.num n => PyValue.int n
| Json.str s => PyValue.str s
| Json.arr xs => PyValue.list (ofJsonList xs)
| Json.obj fs => PyValue.dict (ofJsonFields fs)

def ofJsonList : List Json → List PyValue
| [] => []
| x :: rest => ofJson x :: ofJsonList rest

def ofJsonFields : List (String × Json) → List (String × PyValue)
| [] => []
| f :: rest => (f.1, ofJson f.2) :: ofJsonFields rest

end

/-- Python `', '.join(items)` over a mixed iterable: joining succeeds on
strings, and faults with `TypeError` at the first non-string item,
naming its index (here the only non-string inhabitant is `None`). -/
def pyJoinAux : List (Option String) → Nat → Except String (List String)
| [], _ => Except.ok []
| Option.none :: _, i =>
    Except.error ("sequence item " ++ toString i ++
      ": expected str instance, NoneType found")
| Option.some s :: rest, i => (pyJoinAux rest (i + 1)).map (s :: ·)

def pyJoin (items : List (Option String)) : Except String String :=
  (pyJoinAux items 0).map (String.intercalate ", ")

/-- An assignment target as `visit_Assign` classifies it: an
`ast.Name` with its identifier, or any other target shape (tuple,
attribute, subscript, ...), for which `isinstance(target, ast.Name)`
is false. -/
inductive Target where
| name : String → Target
| other : Target

/-- The statement shapes `CodeExecutor` distinguishes while visiting the
parsed tree: `import a, b` (each alias carries a module name and an
optional `as` name), `from M import y, z` (the module is `Option.none`
for a purely relative import such as `from . import x`; the imported
member names are carried but, as in the source, never inspected),
plain assignments with their target list, compound statements whose
bodies the generic visitor recurses into, and any other statement. -/
inductive Stmt where
| importStmt : List (String × Option String) → Stmt
| importFrom : Option String → List String → Stmt
| assign : List Target → Stmt
| compound : List Stmt → Stmt
| other : Stmt

mutual

/-- `CodeExecutor.imported_modules` after visiting one statement:
`visit_Import` adds `alias.name` for every alias, `visit_ImportFrom`
adds `node.module` (which may be `None`). -/
def stmtImports : Stmt → Finset (Option String)
| Stmt.importStmt aliases =>
    (aliases.map (fun a => Option.some a.1)).toFinset
| Stmt.importFrom m _ => {m}
| Stmt.assign _ => ∅
| Stmt.compound body => stmtsImports body
| Stmt.other => ∅

def stmtsImports : List Stmt → Finset (Option String)
| [] => ∅
| s :: rest => stmtImports s ∪ stmtsImports rest

end

mutual

/-- `CodeExecutor.has_result` after visiting one statement:
`visit_Assign` sets the flag when some target is an `ast.Name` whose
identifier is exactly `result`. -/
def stmtHasResult : Stmt → Bool
| Stmt.assign targets =>
    targets.any (fun t =>
      match t with
      | Target.name id => id == "result"
      | Target.other => false)
| Stmt.compound body => stmtsHasResult body
| _ => false

def stmtsHasResult : List Stmt → Bool
| [] => false
| s :: rest => stmtHasResult s || stmtsHasResult rest

end

/-- Observable effects of running a script: how many SDK calls it made
and which modules it loaded at runtime (e.g. through the `__import__`
builtin). -/
structure ExecEffects where
  sdkCalls : Nat
  loaded : List String
deriving DecidableEq

def noEffects : ExecEffects := ⟨0, []⟩

/-- Outcome of `exec`: an effect trace, and either the fault message of
the exception it raised or the final namespace. -/
structure ExecResult where
  effects : ExecEffects
  outcome : Except String (List (String × PyValue))

/-- A submitted script: the outcome of `ast.parse` (a `SyntaxError`
message or the statement tree) together with the opaque semantics of
executing its compiled form on a given namespace. -/
structure Script where
  parse : Except String (List Stmt)
  run : List (String × PyValue) → ExecResult

/-- Enumeration oracle fixing an iteration order for Python sets, which
the source relies on in `', '.join(...)` over `set` values. -/
structure SetEnum where
  enumO : Finset (Option String) → List (Option String)
  enumS : Finset String → List String
  enumO_mem : ∀ s x, x ∈ enumO s ↔ x ∈ s
  enumO_nodup : ∀ s, (enumO s).Nodup
  enumS_mem : ∀ s x, x ∈ enumS s ↔ x ∈ s
  enumS_nodup : ∀ s, (enumS s).Nodup

/-- Injectively encode a character sequence as a natural number
(little-endian, base `2 ^ 32`, digits shifted by one so that length is
also captured).  Used only to order set elements for concrete computable
enumerations of finite sets. -/
def strKey : List Char → Nat
| [] => 0
| c :: rest => (c.toNat + 1) + 4294967296 * strKey rest

theorem strKey_inj : ∀ l1 l2 : List Char, strKey l1 = strKey l2 → l1 = l2
| [], [] => fun _ => rfl
| [], c :: rest => by
    intro h
    exfalso
    simp only [strKey] at h
    omega
| c :: rest, [] => by
    intro h
    exfalso
    simp only [strKey] at h
    omega
| a :: as, b :: bs => by
    intro h
    simp only [strKey] at h
    have ha : a.toNat < 4294967296 := a.val.toNat_lt
    have hb : b.toNat < 4294967296 := b.val.toNat_lt
    have hd : a.toNat = b.toNat ∧ strKey as = strKey bs := by
      constructor <;> omega
    have hab : a = b := by
      apply Char.eq_of_val_eq
      apply UInt32.eq_of_toBitVec_eq
      apply BitVec.eq_of_toNat_eq
      exact hd.1
    rw [hab, strKey_inj as bs hd.2]

/-- A decidable total order on `String` by key comparison. -/
def strLE (a b : String) : Prop := strKey a.data ≤ strKey b.data

instance : DecidableRel strLE := fun a b => Nat.decLe _ _

instance : IsTrans String strLE where
  trans := fun _ _ _ hab hbc => Nat.le_trans hab hbc

instance : IsAntisymm String strLE where
  antisymm := fun a b hab hba => by
    rcases a with ⟨la⟩
    rcases b with ⟨lb⟩
    exact congrArg String.mk (strKey_inj la lb (Nat.le_antisymm hab hba))

instance : IsTotal String strLE where
  total := fun a b => Nat.le_total _ _

/-- The key order lifted to `Option String` (`Option.none` first). -/
def optKey : Option String → Nat
| Option.none => 0
| Option.some s => 1 + 4294967296 * strKey s.data

theorem optKey_inj : ∀ a b : Option String, optKey a = optKey b → a = b := by
  intro a b h
  cases a with
  | none =>
    cases b with
    | none => rfl
    | some s => simp only [optKey] at h; omega
  | some sa =>
    cases b with
    | none => simp only [optKey] at h; omega
    | some sb =>
      simp only [optKey] at h
      have hk : strKey sa.data = strKey sb.data := by omega
      have hd : sa.data = sb.data := strKey_inj _ _ hk
      rcases sa with ⟨la⟩
      rcases sb with ⟨lb⟩
      have hl : la = lb := hd
      rw [hl]

/-- A decidable total order on `Option String` by key comparison. -/
def optStrLE (a b : Option String) : Prop := optKey a ≤ optKey b

instance : DecidableRel optStrLE := fun a b => Nat.decLe _ _

instance : IsTrans (Option String) optStrLE where
  trans := fun _ _ _ hab hbc => Nat.le_trans hab hbc

instance : IsAntisymm (Option String) optStrLE where
  antisymm := fun a b hab hba => optKey_inj a b (Nat.le_antisymm hab hba)

instance : IsTotal (Option String) optStrLE where
  total := fun a b => Nat.le_total _ _

/-- Sort a finite set into a list by insertion sort (a computable
variant of `Finset.sort` that the kernel can evaluate). -/
def finSortBy {α : Type} (r : α → α → Prop) [DecidableRel r] [IsTrans α r]
    [IsAntisymm α r] [IsTotal α r] (s : Finset α) : List α :=
  Quotient.liftOn s.val (List.insertionSort r) (fun l1 l2 h =>
    List.eq_of_perm_of_sorted
      ((List.perm_insertionSort r l1).trans
        (h.trans (List.perm_insertionSort r l2).symm))
      (List.sorted_insertionSort r l1) (List.sorted_insertionSort r l2))

theorem mem_finSortBy {α : Type} (r : α → α → Prop) [DecidableRel r]
    [IsTrans α r] [IsAntisymm α r] [IsTotal α r] (s : Finset α) (x : α) :
    x ∈ finSortBy r s ↔ x ∈ s := by
  rcases s with ⟨m, nd⟩
  induction m using Quotient.inductionOn with
  | h l =>
    show x ∈ List.insertionSort r l ↔ _
    rw [(List.perm_insertionSort r l).mem_iff]
    rfl

theorem nodup_finSortBy {α : Type} (r : α → α → Prop) [DecidableRel r]
    [IsTrans α r] [IsAntisymm α r] [IsTotal α r] (s : Finset α) :
    (finSortBy r s).Nodup := by
  rcases s with ⟨m, nd⟩
  induction m using Quotient.inductionOn with
  | h l =>
    show (List.insertionSort r l).Nodup
    exact (List.perm_insertionSort r l).nodup_iff.mpr nd

/-- A concrete enumeration: ascending sort. -/
def canonicalEnum : SetEnum where
  enumO := fun s => finSortBy optStrLE s
  enumS := fun s => finSortBy strLE s
  enumO_mem := fun s x => mem_finSortBy optStrLE s x
  enumO_nodup := fun s => nodup_finSortBy optStrLE s
  enumS_mem := fun s x => mem_finSortBy strLE s x
  enumS_nodup := fun s => nodup_finSortBy strLE s

/-- A second legitimate enumeration: descending (reversed sort). -/
def revEnum : SetEnum where
  enumO := fun s => (finSortBy optStrLE s).reverse
  enumS := fun s => (finSortBy strLE s).reverse
  enumO_mem := fun s x => by
    rw [List.mem_reverse]; exact mem_finSortBy optStrLE s x
  enumO_nodup := fun s => List.nodup_reverse.mpr (nodup_finSortBy optStrLE s)
  enumS_mem := fun s x => by
    rw [List.mem_reverse]; exact mem_finSortBy strLE s x
  enumS_nodup := fun s => List.nodup_reverse.mpr (nodup_finSortBy strLE s)

/-- The fixed import allow-list of `execute_query`. -/
def allowed_modules : Finset String :=
  {"boto3", "operator", "json", "datetime", "pytz", "dateutil", "re", "time"}

/-- The names drawn from `__builtins__` into the execution namespace, in
source order. -/
def builtinNames : List String :=
  ["dict", "list", "tuple", "set", "str", "int", "float", "bool",
   "len", "max", "min", "sorted", "filter", "map", "sum", "any", "all",
   "__import__", "hasattr", "getattr", "isinstance", "print"]

/-- The `__builtins__` dict of the execution namespace: each listed name
bound to the corresponding builtin (opaque here). -/
def builtinsDict : List (String × PyValue) :=
  builtinNames.map (fun n =>
    (n, PyValue.obj ("<built-in " ++ n ++ ">") Option.none))

/-- The fresh execution namespace `execute_query` builds. -/
def local_ns : List (String × PyValue) :=
  [("boto3", PyValue.obj "<module boto3>" Option.none),
   ("session", PyValue.obj "<session>" Option.none),
   ("result", PyValue.none),
   ("itemgetter", PyValue.obj "<itemgetter>" Option.none),
   ("__builtins__", PyValue.dict builtinsDict)]

/-- Dictionary lookup, `ns[k]` as an `Option`. -/
def dictGet (ns : List (String × PyValue)) (k : String) : Option PyValue :=
  (ns.find? (fun p => p.1 == k)).map Prod.snd

/-- `AWSResourceQuerier.execute_query`: parse, validate imports, build
the namespace, execute, check the output contract, normalise and encode
— every fault converted to the `mkError` envelope by the two `except`
clauses.  Returns the JSON output string and the effect trace of
whatever execution took place. -/
def execute_query (se : SetEnum) (script : Script) : String × ExecEffects :=
  match script.parse with
  | Except.error msg => (mkError ("Syntax error: " ++ msg), noEffects)
  | Except.ok tree =>
    let imported := stmtsImports tree
    let has_result := stmtsHasResult tree
    let unauthorized := imported \ allowed_modules.image Option.some
    if unauthorized ≠ ∅ then
      match pyJoin (se.enumO unauthorized) with
      | Except.error m => (mkError m, noEffects)
      | Except.ok ustr =>
          (mkError ("Unauthorized imports: " ++ ustr ++ ". Only " ++
            String.intercalate ", " (se.enumS allowed_modules) ++
            " are allowed."), noEffects)
    else
      let r := script.run local_ns
      match r.outcome with
      | Except.error m => (mkError m, r.effects)
      | Except.ok ns =>
        let result := (dictGet ns "result").getD PyValue.none
        if has_result = false then
          (mkError "Code must set a \x27result\x27 variable with the query output",
            r.effects)
        else
          match result with
          | PyValue.none => (mkError "Result cannot be None", r.effects)
          | v =>
            let v2 := match v with
                      | PyValue.obj _ (Option.some d) => d
                      | w => w
            (jsonDumps (dumpsDefaultStr v2), r.effects)

/-! ## Helper lemmas -/

theorem pyJoinAux_of_none_mem : ∀ (l : List (Option String)) (k : Nat),
    Option.none ∈ l → ∃ i : Nat, pyJoinAux l k = Except.error
      ("sequence item " ++ toString i ++ ": expected str instance, NoneType found")
| [], _, h => absurd h (List.not_mem_nil _)
| Option.none :: _, k, _ => ⟨k, rfl⟩
| Option.some s :: rest, k, h => by
    have hrest : Option.none ∈ rest := by
      rcases List.mem_cons.mp h with h1 | h2
      · exact absurd h1 (by simp)
      · exact h2
    obtain ⟨i, hi⟩ := pyJoinAux_of_none_mem rest (k + 1) hrest
    refine ⟨i, ?_⟩
    simp only [pyJoinAux, hi, Except.map]

theorem pyJoin_of_none_mem (l : List (Option String)) (h : Option.none ∈ l) :
    ∃ i : Nat, pyJoin l = Except.error
      ("sequence item " ++ toString i ++ ": expected str instance, NoneType found") := by
  obtain ⟨i, hi⟩ := pyJoinAux_of_none_mem l 0 h
  exact ⟨i, by simp only [pyJoin, hi, Except.map]⟩

theorem pyJoinAux_all_some : ∀ (l : List (Option String)) (k : Nat),
    Option.none ∉ l →
    ∃ names : List String, names.map Option.some = l ∧
      pyJoinAux l k = Except.ok names
| [], _, _ => ⟨[], rfl, rfl⟩
| Option.none :: _, _, h => absurd (List.mem_cons_self _ _) h
| Option.some s :: rest, k, h => by
    have hrest : Option.none ∉ rest := fun hr => h (List.mem_cons_of_mem _ hr)
    obtain ⟨names, hmap, hok⟩ := pyJoinAux_all_some rest (k + 1) hrest
    refine ⟨s :: names, by simp [hmap], ?_⟩
    simp only [pyJoinAux, hok, Except.map]

theorem pyJoin_all_some (l : List (Option String)) (h : Option.none ∉ l) :
    ∃ names : List String, names.map Option.some = l ∧
      pyJoin l = Except.ok (String.intercalate ", " names) := by
  obtain ⟨names, hmap, hok⟩ := pyJoinAux_all_some l 0 h
  exact ⟨names, hmap, by simp only [pyJoin, hok, Except.map]⟩

mutual

theorem dumpsDefaultStr_ofJson : ∀ j : Json, dumpsDefaultStr (ofJson j) = j
| Json.null => rfl
| Json.bool b => rfl
| Json.num n => rfl
| Json.str s => rfl
| Json.arr xs => by
    simp only [ofJson, dumpsDefaultStr, dumpsDefaultStrList_ofJsonList xs]
| Json.obj fs => by
    simp only [ofJson, dumpsDefaultStr, dumpsDefaultStrFields_ofJsonFields fs]

theorem dumpsDefaultStrList_ofJsonList :
    ∀ xs : List Json, dumpsDefaultStrList (ofJsonList xs) = xs
| [] => rfl
| x :: rest => by
    simp only [ofJsonList, dumpsDefaultStrList, dumpsDefaultStr_ofJson x,
      dumpsDefaultStrList_ofJsonList rest]

theorem dumpsDefaultStrFields_ofJsonFields :
    ∀ fs : List (String × Json), dumpsDefaultStrFields (ofJsonFields fs) = fs
| [] => rfl
| f :: rest => by
    simp only [ofJsonFields, dumpsDefaultStrFields, dumpsDefaultStr_ofJson f.2,
      dumpsDefaultStrFields_ofJsonFields rest]

end

theorem ofJson_eq_none_iff : ∀ j : Json, ofJson j = PyValue.none ↔ j = Json.null := by
  intro j
  cases j <;> simp [ofJson]

theorem ofJson_ne_obj : ∀ (j : Json) (r : String) (td : Option PyValue),
    ofJson j ≠ PyValue.obj r td := by
  intro j r td
  cases j <;> simp [ofJson]

mutual

theorem dumpsStrict_agree : ∀ (v : PyValue) (j : Json),
    dumpsStrict v = Option.some j → dumpsDefaultStr v = j
| PyValue.none, j => by intro h; simpa [dumpsStrict, dumpsDefaultStr] using h
| PyValue.bool b, j => by intro h; simpa [dumpsStrict, dumpsDefaultStr] using h
| PyValue.int n, j => by intro h; simpa [dumpsStrict, dumpsDefaultStr] using h
| PyValue.str s, j => by intro h; simpa [dumpsStrict, dumpsDefaultStr] using h
| PyValue.list xs, j => by
    intro h
    simp only [dumpsStrict, Option.map_eq_some'] at h
    obtain ⟨js, hjs, rfl⟩ := h
    simp only [dumpsDefaultStr, dumpsStrictList_agree xs js hjs]
| PyValue.dict fs, j => by
    intro h
    simp only [dumpsStrict, Option.map_eq_some'] at h
    obtain ⟨js, hjs, rfl⟩ := h
    simp only [dumpsDefaultStr, dumpsStrictFields_agree fs js hjs]
| PyValue.obj r td, j => by intro h; simp [dumpsStrict] at h

theorem dumpsStrictList_agree : ∀ (xs : List PyValue) (js : List Json),
    dumpsStrictList xs = Option.some js → dumpsDefaultStrList xs = js
| [], js => by intro h; simpa [dumpsStrictList, dumpsDefaultStrList] using h
| x :: rest, js => by
    intro h
    simp only [dumpsStrictList] at h
    rcases hx : dumpsStrict x with _ | jx
    · rw [hx] at h; exact absurd h (by simp)
    · rcases hr : dumpsStrictList rest with _ | jrest
      · rw [hx, hr] at h; exact absurd h (by simp)
      · rw [hx, hr] at h
        obtain rfl : jx :: jrest = js := by
          simpa using h
        simp only [dumpsDefaultStrList, dumpsStrict_agree x jx hx,
          dumpsStrictList_agree rest jrest hr]

theorem dumpsStrictFields_agree : ∀ (fs : List (String × PyValue))
    (js : List (String × Json)),
    dumpsStrictFields fs = Option.some js → dumpsDefaultStrFields fs = js
| [], js => by intro h; simpa [dumpsStrictFields, dumpsDefaultStrFields] using h
| f :: rest, js => by
    intro h
    simp only [dumpsStrictFields] at h
    rcases hx : dumpsStrict f.2 with _ | jx
    · rw [hx] at h; exact absurd h (by simp)
    · rcases hr : dumpsStrictFields rest with _ | jrest
      · rw [hx, hr] at h; exact absurd h (by simp)
      · rw [hx, hr] at h
        obtain rfl : (f.1, jx) :: jrest = js := by
          simpa using h
        simp only [dumpsDefaultStrFields, dumpsStrict_agree f.2 jx hx,
          dumpsStrictFields_agree rest jrest hr]

end

/-! ## Concrete scripts used as witnesses and counterexamples -/

/-- A script that fails to parse. -/
def c6_witness_script : Script :=
  { parse := Except.error "invalid syntax (<string>, line 1)",
    run := fun ns => ⟨noEffects, Except.ok ns⟩ }

/-- A script that parses, has only authorized imports (none at all),
never assigns `result`, and performs one SDK call when executed. -/
def c1_script : Script :=
  { parse := Except.ok [Stmt.other],
    run := fun ns => ⟨⟨1, []⟩, Except.ok ns⟩ }

/-- Like `c1_script`, ending in an empty namespace. -/
def c1_witness_script : Script :=
  { parse := Except.ok [Stmt.other],
    run := fun _ => ⟨⟨1, []⟩, Except.ok []⟩ }

/-- A script whose execution raises a runtime fault. -/
def c2_witness_script : Script :=
  { parse := Except.ok [Stmt.assign [Target.name "result"]],
    run := fun _ => ⟨⟨1, []⟩, Except.error "An error occurred (AccessDenied)"⟩ }

/-! ## C6: syntax errors are rejected before any execution -/

/-- C6: for every script that fails to parse, `execute_query` returns
the error envelope with the original parser message prefixed by
`Syntax error: `, and performs zero SDK calls (nothing executes). -/
theorem syntax_error_rejected (se : SetEnum) (script : Script) (msg : String)
    (h : script.parse = Except.error msg) :
    execute_query se script = (mkError ("Syntax error: " ++ msg), noEffects) := by
  unfold execute_query
  rw [h]

theorem syntax_error_rejected_witness :
    execute_query canonicalEnum c6_witness_script =
      (mkError "Syntax error: invalid syntax (<string>, line 1)", noEffects) :=
  syntax_error_rejected canonicalEnum c6_witness_script
    "invalid syntax (<string>, line 1)" rfl

/-! ## C1: missing output contract -/

/-- C1 (amended): a script that parses, has only authorized imports and
no static assignment to `result` is answered with the
missing-output-contract error — but only after the script has been
executed: its effects (SDK calls included) are those of the run. -/
theorem missing_output_error_after_execution (se : SetEnum) (script : Script)
    (tree : List Stmt) (ns : List (String × PyValue)) (eff : ExecEffects)
    (hp : script.parse = Except.ok tree)
    (hi : stmtsImports tree ⊆ allowed_modules.image Option.some)
    (hr : stmtsHasResult tree = false)
    (hx : script.run local_ns = ⟨eff, Except.ok ns⟩) :
    execute_query se script =
      (mkError "Code must set a \x27result\x27 variable with the query output",
        eff) := by
  have hdiff : stmtsImports tree \ allowed_modules.image Option.some = ∅ :=
    Finset.sdiff_eq_empty_iff_subset.mpr hi
  unfold execute_query
  rw [hp]
  simp only [hdiff, hx, hr, ne_eq, not_true_eq_false, if_false]
  simp

theorem missing_output_error_after_execution_witness :
    execute_query canonicalEnum c1_witness_script =
      (mkError "Code must set a \x27result\x27 variable with the query output",
        ⟨1, []⟩) :=
  missing_output_error_after_execution canonicalEnum c1_witness_script
    [Stmt.other] [] ⟨1, []⟩ rfl (by decide) rfl rfl

/-- C1 (counterexample to the claim as stated): `c1_script` parses, all
its imports are authorized, it never assigns `result` — yet its
execution does run, performing one SDK call, before the
missing-output-contract error is returned. -/
theorem missing_output_counterexample :
    c1_script.parse = Except.ok [Stmt.other] ∧
    stmtsImports [Stmt.other] = ∅ ∧
    stmtsHasResult [Stmt.other] = false ∧
    execute_query canonicalEnum c1_script =
      (mkError "Code must set a \x27result\x27 variable with the query output",
        ⟨1, []⟩) ∧
    (⟨1, []⟩ : ExecEffects) ≠ noEffects := by
  refine ⟨rfl, by decide, rfl, by decide, by decide⟩

/-! ## C2: no fault escapes the runQuery boundary -/

/-- C2: `execute_query` always returns a JSON document — either an
error envelope or an encoded result value — and any runtime fault
raised by a validated script is caught and converted to the
`mkError` envelope carrying the fault message. -/
theorem runquery_boundary_contains_faults (se : SetEnum) (script : Script) :
    ((∃ m, (execute_query se script).1 = mkError m) ∨
      (∃ v, (execute_query se script).1 = jsonDumps (dumpsDefaultStr v))) ∧
    (∀ tree eff m, script.parse = Except.ok tree →
      stmtsImports tree \ allowed_modules.image Option.some = ∅ →
      script.run local_ns = ⟨eff, Except.error m⟩ →
      execute_query se script = (mkError m, eff)) := by
  constructor
  · rcases hp : script.parse with msg | tree
    · exact Or.inl ⟨"Syntax error: " ++ msg, by unfold execute_query; rw [hp]⟩
    · by_cases hu : stmtsImports tree \ allowed_modules.image Option.some = ∅
      · rcases hx : script.run local_ns with ⟨eff, outcome⟩
        rcases outcome with m | ns
        · refine Or.inl ⟨m, ?_⟩
          unfold execute_query
          rw [hp]
          simp only [hu, hx, ne_eq, not_true_eq_false, if_false]
        · by_cases hr : stmtsHasResult tree = false
          · refine Or.inl ⟨"Code must set a \x27result\x27 variable with the query output", ?_⟩
            unfold execute_query
            rw [hp]
            simp [hu, hx, hr]
          · rcases hv : (dictGet ns "result").getD PyValue.none with _ | b | n | s | xs | fs | ⟨r, td⟩
            · refine Or.inl ⟨"Result cannot be None", ?_⟩
              unfold execute_query
              rw [hp]
              simp [hu, hx, hr, hv]
            · refine Or.inr ⟨PyValue.bool b, ?_⟩
              unfold execute_query
              rw [hp]
              simp [hu, hx, hr, hv]
            · refine Or.inr ⟨PyValue.int n, ?_⟩
              unfold execute_query
              rw [hp]
              simp [hu, hx, hr, hv]
            · refine Or.inr ⟨PyValue.str s, ?_⟩
              unfold execute_query
              rw [hp]
              simp [hu, hx, hr, hv]
            · refine Or.inr ⟨PyValue.list xs, ?_⟩
              unfold execute_query
              rw [hp]
              simp [hu, hx, hr, hv]
            · refine Or.inr ⟨PyValue.dict fs, ?_⟩
              unfold execute_query
              rw [hp]
              simp [hu, hx, hr, hv]
            · rcases td with _ | d
              · refine Or.inr ⟨PyValue.obj r Option.none, ?_⟩
                unfold execute_query
                rw [hp]
                simp [hu, hx, hr, hv]
              · refine Or.inr ⟨d, ?_⟩
                unfold execute_query
                rw [hp]
                simp [hu, hx, hr, hv]
      · obtain ⟨x, hx⟩ := Finset.nonempty_iff_ne_empty.mpr hu
        rcases hj : pyJoin (se.enumO (stmtsImports tree \ allowed_modules.image Option.some)) with m | u
        · refine Or.inl ⟨m, ?_⟩
          unfold execute_query
          rw [hp]
          simp [hu, hj]
        · refine Or.inl ⟨"Unauthorized imports: " ++ u ++ ". Only " ++
            String.intercalate ", " (se.enumS allowed_modules) ++ " are allowed.", ?_⟩
          unfold execute_query
          rw [hp]
          simp [hu, hj]
  · intro tree eff m hp hdiff hx
    unfold execute_query
    rw [hp]
    simp only [hdiff, hx, ne_eq, not_true_eq_false, if_false]

theorem runquery_boundary_contains_faults_witness :
    execute_query canonicalEnum c2_witness_script =
      (mkError "An error occurred (AccessDenied)", ⟨1, []⟩) :=
  (runquery_boundary_contains_faults canonicalEnum c2_witness_script).2
    [Stmt.assign [Target.name "result"]] ⟨1, []⟩
    "An error occurred (AccessDenied)" rfl (by decide) rfl

/-! ## C9: None results -/

/-- A script that executes fine but never assigns `result` (statically
or at runtime): the namespace keeps the pre-seeded `None`. -/
def c9_script_a : Script :=
  { parse := Except.ok [Stmt.assign [Target.name "x"]],
    run := fun ns => ⟨noEffects, Except.ok ns⟩ }

/-- A script whose `result` is an object whose `to_dict()` returns
`None`. -/
def c9_script_b : Script :=
  { parse := Except.ok [Stmt.assign [Target.name "result"]],
    run := fun _ => ⟨noEffects,
      Except.ok [("result", PyValue.obj "QueryResponse" (Option.some PyValue.none))]⟩ }

/-- A script that explicitly executes `result = None`. -/
def c9_witness_script : Script :=
  { parse := Except.ok [Stmt.assign [Target.name "result"]],
    run := fun _ => ⟨noEffects, Except.ok [("result", PyValue.none)]⟩ }

/-- C9 (amended): a script that validates (its tree assigns `result`
statically), executes without fault, and leaves `result` bound to
`None` is answered with the `Result cannot be None` error. -/
theorem none_result_rejected (se : SetEnum) (script : Script)
    (tree : List Stmt) (ns : List (String × PyValue)) (eff : ExecEffects)
    (hp : script.parse = Except.ok tree)
    (hi : stmtsImports tree ⊆ allowed_modules.image Option.some)
    (hr : stmtsHasResult tree = true)
    (hx : script.run local_ns = ⟨eff, Except.ok ns⟩)
    (hv : (dictGet ns "result").getD PyValue.none = PyValue.none) :
    execute_query se script = (mkError "Result cannot be None", eff) := by
  have hdiff : stmtsImports tree \ allowed_modules.image Option.some = ∅ :=
    Finset.sdiff_eq_empty_iff_subset.mpr hi
  unfold execute_query
  rw [hp]
  simp [hdiff, hx, hr, hv]

theorem none_result_rejected_witness :
    execute_query canonicalEnum c9_witness_script =
      (mkError "Result cannot be None", noEffects) :=
  none_result_rejected canonicalEnum c9_witness_script
    [Stmt.assign [Target.name "result"]] [("result", PyValue.none)] noEffects
    rfl (by decide) rfl rfl rfl

/-- C9 (counterexample to the claim as stated): a faultless execution
that leaves `result` as `None` is not always answered with
`Result cannot be None` — without a static assignment the
missing-output message is produced instead; and a top-level JSON null
success payload can be produced, through an object whose `to_dict()`
returns `None`. -/
theorem none_result_counterexample :
    execute_query canonicalEnum c9_script_a =
      (mkError "Code must set a \x27result\x27 variable with the query output",
        noEffects) ∧
    mkError "Code must set a \x27result\x27 variable with the query output" ≠
      mkError "Result cannot be None" ∧
    execute_query canonicalEnum c9_script_b = (jsonDumps Json.null, noEffects) ∧
    jsonDumps Json.null = "null" :=
  ⟨by decide, by decide, by decide, rfl⟩

/-! ## C4: JSON results are returned exactly -/

/-- A script that executes `result = None` (the JSON null embedding). -/
def c4_script : Script :=
  { parse := Except.ok [Stmt.assign [Target.name "result"]],
    run := fun _ => ⟨noEffects, Except.ok [("result", PyValue.none)]⟩ }

/-- A script whose `result` is the dict `{"a": 1}`. -/
def c4_witness_script : Script :=
  { parse := Except.ok [Stmt.assign [Target.name "result"]],
    run := fun _ => ⟨⟨1, []⟩,
      Except.ok [("result", PyValue.dict [("a", PyValue.int 1)])]⟩ }

/-- C4 (amended): a script that validates, executes without fault, and
assigns `result` a JSON-compatible value other than JSON null is
answered with exactly that value JSON-encoded, with no envelope. -/
theorem json_result_returned_exactly (se : SetEnum) (script : Script)
    (tree : List Stmt) (ns : List (String × PyValue)) (eff : ExecEffects)
    (j : Json)
    (hp : script.parse = Except.ok tree)
    (hi : stmtsImports tree ⊆ allowed_modules.image Option.some)
    (hr : stmtsHasResult tree = true)
    (hx : script.run local_ns = ⟨eff, Except.ok ns⟩)
    (hv : (dictGet ns "result").getD PyValue.none = ofJson j)
    (hj : j ≠ Json.null) :
    execute_query se script = (jsonDumps j, eff) := by
  have hdiff : stmtsImports tree \ allowed_modules.image Option.some = ∅ :=
    Finset.sdiff_eq_empty_iff_subset.mpr hi
  cases j with
  | null => exact absurd rfl hj
  | bool b =>
    simp only [ofJson] at hv
    unfold execute_query
    rw [hp]
    simp [hdiff, hx, hr, hv, dumpsDefaultStr]
  | num n =>
    simp only [ofJson] at hv
    unfold execute_query
    rw [hp]
    simp [hdiff, hx, hr, hv, dumpsDefaultStr]
  | str s =>
    simp only [ofJson] at hv
    unfold execute_query
    rw [hp]
    simp [hdiff, hx, hr, hv, dumpsDefaultStr]
  | arr xs =>
    simp only [ofJson] at hv
    unfold execute_query
    rw [hp]
    simp [hdiff, hx, hr, hv, dumpsDefaultStr, dumpsDefaultStrList_ofJsonList]
  | obj fs =>
    simp only [ofJson] at hv
    unfold execute_query
    rw [hp]
    simp [hdiff, hx, hr, hv, dumpsDefaultStr, dumpsDefaultStrFields_ofJsonFields]

theorem json_result_returned_exactly_witness :
    execute_query canonicalEnum c4_witness_script =
      (jsonDumps (Json.obj [("a", Json.num 1)]), ⟨1, []⟩) :=
  json_result_returned_exactly canonicalEnum c4_witness_script
    [Stmt.assign [Target.name "result"]]
    [("result", PyValue.dict [("a", PyValue.int 1)])] ⟨1, []⟩
    (Json.obj [("a", Json.num 1)]) rfl (by decide) rfl rfl rfl
    (fun h => Json.noConfusion h)

/-- C4 (counterexample to the claim as stated): JSON null is a
JSON-primitive-compatible value, but a script assigning it receives the
`Result cannot be None` error envelope rather than `null`. -/
theorem json_result_null_counterexample :
    ofJson Json.null = PyValue.none ∧
    c4_script.parse = Except.ok [Stmt.assign [Target.name "result"]] ∧
    stmtsHasResult [Stmt.assign [Target.name "result"]] = true ∧
    execute_query canonicalEnum c4_script =
      (mkError "Result cannot be None", noEffects) ∧
    mkError "Result cannot be None" ≠ jsonDumps Json.null :=
  ⟨rfl, rfl, rfl, by decide, by decide⟩

/-! ## C5: normalization is total and ordered -/

/-- A script whose `result` is an SDK-response-like object exposing
`to_dict()`. -/
def c5_witness_script : Script :=
  { parse := Except.ok [Stmt.assign [Target.name "result"]],
    run := fun _ => ⟨noEffects,
      Except.ok [("result",
        PyValue.obj "<DescribeResponse>"
          (Option.some (PyValue.dict [("s", PyValue.str "ok")])))]⟩ }

/-- C5: on the success path the result is always answered as
`jsonDumps (normalizeResult v)` (normalization never faults);
`normalizeResult` applies the `to_dict()` conversion before encoding;
the `default=str` encoder stringifies an opaque leaf where the strict
encoder would fail, and agrees with the strict encoder whenever the
latter succeeds. -/
theorem normalization_total_and_ordered :
    (∀ (se : SetEnum) (script : Script) (tree : List Stmt)
      (ns : List (String × PyValue)) (eff : ExecEffects) (v : PyValue),
      script.parse = Except.ok tree →
      stmtsImports tree ⊆ allowed_modules.image Option.some →
      stmtsHasResult tree = true →
      script.run local_ns = ⟨eff, Except.ok ns⟩ →
      (dictGet ns "result").getD PyValue.none = v →
      v ≠ PyValue.none →
      execute_query se script = (jsonDumps (normalizeResult v), eff)) ∧
    (∀ (r : String) (d : PyValue),
      normalizeResult (PyValue.obj r (Option.some d)) = dumpsDefaultStr d) ∧
    (∀ (r : String) (td : Option PyValue),
      dumpsDefaultStr (PyValue.obj r td) = Json.str r) ∧
    (∀ (r : String) (td : Option PyValue),
      dumpsStrict (PyValue.obj r td) = Option.none) ∧
    (∀ (v : PyValue) (j : Json),
      dumpsStrict v = Option.some j → dumpsDefaultStr v = j) := by
  refine ⟨?_, fun _ _ => rfl, fun _ _ => rfl, fun _ _ => rfl, dumpsStrict_agree⟩
  intro se script tree ns eff v hp hi hr hx hv hnn
  have hdiff : stmtsImports tree \ allowed_modules.image Option.some = ∅ :=
    Finset.sdiff_eq_empty_iff_subset.mpr hi
  cases v with
  | none => exact absurd rfl hnn
  | bool b =>
    unfold execute_query
    rw [hp]
    simp [hdiff, hx, hr, hv, normalizeResult]
  | int n =>
    unfold execute_query
    rw [hp]
    simp [hdiff, hx, hr, hv, normalizeResult]
  | str s =>
    unfold execute_query
    rw [hp]
    simp [hdiff, hx, hr, hv, normalizeResult]
  | list xs =>
    unfold execute_query
    rw [hp]
    simp [hdiff, hx, hr, hv, normalizeResult]
  | dict fs =>
    unfold execute_query
    rw [hp]
    simp [hdiff, hx, hr, hv, normalizeResult]
  | obj r td =>
    cases td with
    | none =>
      unfold execute_query
      rw [hp]
      simp [hdiff, hx, hr, hv, normalizeResult]
    | some d =>
      unfold execute_query
      rw [hp]
      simp [hdiff, hx, hr, hv, normalizeResult]

theorem normalization_total_and_ordered_witness :
    execute_query canonicalEnum c5_witness_script =
      (jsonDumps (normalizeResult
        (PyValue.obj "<DescribeResponse>"
          (Option.some (PyValue.dict [("s", PyValue.str "ok")])))), noEffects) :=
  normalization_total_and_ordered.1 canonicalEnum c5_witness_script
    [Stmt.assign [Target.name "result"]]
    [("result", PyValue.obj "<DescribeResponse>"
      (Option.some (PyValue.dict [("s", PyValue.str "ok")])))]
    noEffects
    (PyValue.obj "<DescribeResponse>"
      (Option.some (PyValue.dict [("s", PyValue.str "ok")])))
    rfl (by decide) rfl rfl rfl (fun h => PyValue.noConfusion h)

/-! ## C3: unauthorized imports -/

/-- A script importing two unauthorized modules. -/
def c3_script : Script :=
  { parse := Except.ok [Stmt.importStmt [("zzz", Option.none), ("aaa", Option.none)]],
    run := fun ns => ⟨⟨1, []⟩, Except.ok ns⟩ }

/-- A script importing the unauthorized module `os`. -/
def c3_witness_script : Script :=
  { parse := Except.ok [Stmt.importStmt [("os", Option.none)]],
    run := fun ns => ⟨⟨1, []⟩, Except.ok ns⟩ }

/-- C3 (amended): a script with a non-empty set of unauthorized
(named) imports is rejected before anything executes; the message lists
every unauthorized module name — in the set's enumeration order, not
necessarily sorted — together with the allowed set. -/
theorem unauthorized_imports_rejected (se : SetEnum) (script : Script)
    (tree : List Stmt)
    (hp : script.parse = Except.ok tree)
    (hn : Option.none ∉ stmtsImports tree)
    (hu : stmtsImports tree \ allowed_modules.image Option.some ≠ ∅) :
    ∃ names : List String,
      (∀ m : String, m ∈ names ↔
        Option.some m ∈ stmtsImports tree \ allowed_modules.image Option.some) ∧
      names ≠ [] ∧
      execute_query se script =
        (mkError ("Unauthorized imports: " ++ String.intercalate ", " names ++
          ". Only " ++ String.intercalate ", " (se.enumS allowed_modules) ++
          " are allowed."), noEffects) := by
  have hnone : Option.none ∉
      se.enumO (stmtsImports tree \ allowed_modules.image Option.some) := by
    intro h
    exact hn (Finset.mem_sdiff.mp ((se.enumO_mem _ _).mp h)).1
  obtain ⟨names, hmap, hjoin⟩ := pyJoin_all_some _ hnone
  refine ⟨names, ?_, ?_, ?_⟩
  · intro m
    constructor
    · intro hm
      have hmm : Option.some m ∈ names.map Option.some :=
        List.mem_map_of_mem _ hm
      rw [hmap] at hmm
      exact (se.enumO_mem _ _).mp hmm
    · intro hm
      have hmm : Option.some m ∈
          se.enumO (stmtsImports tree \ allowed_modules.image Option.some) :=
        (se.enumO_mem _ _).mpr hm
      rw [← hmap] at hmm
      obtain ⟨m2, hm2, he⟩ := List.mem_map.mp hmm
      cases Option.some.inj he
      exact hm2
  · obtain ⟨x, hx⟩ := Finset.nonempty_iff_ne_empty.mpr hu
    intro hnil
    have hxe : x ∈
        se.enumO (stmtsImports tree \ allowed_modules.image Option.some) :=
      (se.enumO_mem _ _).mpr hx
    rw [← hmap, hnil] at hxe
    exact (List.not_mem_nil x) hxe
  · unfold execute_query
    rw [hp]
    simp [hu, hjoin]

theorem unauthorized_imports_rejected_witness :
    ∃ names : List String,
      (∀ m : String, m ∈ names ↔
        Option.some m ∈ stmtsImports [Stmt.importStmt [("os", Option.none)]] \
          allowed_modules.image Option.some) ∧
      names ≠ [] ∧
      execute_query canonicalEnum c3_witness_script =
        (mkError ("Unauthorized imports: " ++ String.intercalate ", " names ++
          ". Only " ++
          String.intercalate ", " (canonicalEnum.enumS allowed_modules) ++
          " are allowed."), noEffects) :=
  unauthorized_imports_rejected canonicalEnum c3_witness_script
    [Stmt.importStmt [("os", Option.none)]] rfl (by decide) (by decide)

/-- C3 (counterexample to the claim as stated): under a legitimate set
enumeration the unauthorized modules `zzz, aaa` are listed in that
(unsorted) order — `aaa` precedes `zzz` in the string order, yet the
message is not the sorted listing. -/
theorem unauthorized_imports_unsorted_counterexample :
    execute_query revEnum c3_script =
      (mkError "Unauthorized imports: zzz, aaa. Only operator, dateutil, datetime, boto3, pytz, json, time, re are allowed.",
        noEffects) ∧
    execute_query revEnum c3_script ≠
      (mkError "Unauthorized imports: aaa, zzz. Only operator, dateutil, datetime, boto3, pytz, json, time, re are allowed.",
        noEffects) ∧
    strLE "aaa" "zzz" ∧ ¬ strLE "zzz" "aaa" :=
  ⟨by decide, by decide, by decide, by decide⟩

/-! ## C10: relative imports with no module name -/

/-- A script containing `from . import x`. -/
def c10_witness_script : Script :=
  { parse := Except.ok [Stmt.importFrom Option.none ["x"]],
    run := fun ns => ⟨noEffects, Except.ok ns⟩ }

/-- C10: a script whose tree contains a from-import with no module name
records `None` among the imported modules; the unauthorized branch is
taken and the message formatting faults on the `None` entry, so the
caller still receives an error envelope — carrying the generic
`TypeError` text, not the unauthorized-imports shape — and nothing
executes. -/
theorem relative_import_generic_error (se : SetEnum) (script : Script)
    (tree : List Stmt)
    (hp : script.parse = Except.ok tree)
    (hn : Option.none ∈ stmtsImports tree) :
    ∃ i : Nat, execute_query se script =
      (mkError ("sequence item " ++ toString i ++
        ": expected str instance, NoneType found"), noEffects) := by
  have hmem : Option.none ∈
      stmtsImports tree \ allowed_modules.image Option.some := by
    rw [Finset.mem_sdiff]
    refine ⟨hn, ?_⟩
    simp [Finset.mem_image]
  have hu : stmtsImports tree \ allowed_modules.image Option.some ≠ ∅ :=
    Finset.nonempty_iff_ne_empty.mp ⟨_, hmem⟩
  have henum : Option.none ∈
      se.enumO (stmtsImports tree \ allowed_modules.image Option.some) :=
    (se.enumO_mem _ _).mpr hmem
  obtain ⟨i, hi⟩ := pyJoin_of_none_mem _ henum
  refine ⟨i, ?_⟩
  unfold execute_query
  rw [hp]
  simp [hu, hi]

theorem relative_import_generic_error_witness :
    ∃ i : Nat, execute_query canonicalEnum c10_witness_script =
      (mkError ("sequence item " ++ toString i ++
        ": expected str instance, NoneType found"), noEffects) :=
  relative_import_generic_error canonicalEnum c10_witness_script
    [Stmt.importFrom Option.none ["x"]] rfl (by decide)

/-! ## C7: the collected import set -/

/-- C7: the validator's import set receives, for each import statement,
exactly the module names: every alias name of an `import` statement, and
the module (never a member name) of a `from` import; compound bodies
are collected recursively and a statement list contributes the union. -/
theorem import_collection_module_names :
    (∀ aliases : List (String × Option String),
      stmtImports (Stmt.importStmt aliases) =
        (aliases.map (fun a => Option.some a.1)).toFinset) ∧
    (∀ (m : Option String) (members : List String),
      stmtImports (Stmt.importFrom m members) = {m}) ∧
    (∀ (m : Option String) (members : List String) (y : String),
      Option.some y ∈ stmtImports (Stmt.importFrom m members) ↔
        Option.some y = m) ∧
    (∀ body : List Stmt, stmtImports (Stmt.compound body) = stmtsImports body) ∧
    stmtsImports [] = ∅ ∧
    (∀ (s : Stmt) (rest : List Stmt),
      stmtsImports (s :: rest) = stmtImports s ∪ stmtsImports rest) := by
  refine ⟨fun _ => rfl, fun _ _ => rfl, ?_, fun _ => rfl, rfl, fun _ _ => rfl⟩
  intro m members y
  simp [stmtImports]

/-! ## C8: the builtins surface and the runtime import gap -/

/-- A statically import-free tree assigning `result`. -/
def c8_tree : List Stmt := [Stmt.assign [Target.name "result"], Stmt.other]

/-- A script with no import statement whose execution loads the module
`os` at runtime (through the `__import__` builtin left reachable in the
namespace). -/
def c8_script : Script :=
  { parse := Except.ok c8_tree,
    run := fun _ => ⟨⟨0, ["os"]⟩, Except.ok [("result", PyValue.int 1)]⟩ }

/-- C8 (amended): the namespace binds `__builtins__` to exactly the
fixed 22-name set, which includes `__import__`; consequently a script
with no import statements can load an unauthorized module at runtime:
it validates and executes to success. -/
theorem builtins_surface_runtime_import_gap :
    dictGet local_ns "__builtins__" = Option.some (PyValue.dict builtinsDict) ∧
    builtinsDict.map Prod.fst = builtinNames ∧
    builtinNames.length = 22 ∧
    builtinNames.Nodup ∧
    "__import__" ∈ builtinNames ∧
    stmtsImports c8_tree = ∅ ∧
    ("os" : String) ∉ allowed_modules ∧
    execute_query canonicalEnum c8_script =
      (jsonDumps (Json.num 1), ⟨0, ["os"]⟩) := by
  refine ⟨rfl, by decide, by decide, by decide, by decide,
    by decide, by decide, by decide⟩

/-- C8 (counterexample to the claim as stated): the builtin set drawn
into the execution namespace has 22 names, not 21. -/
theorem builtins_not_21_counterexample :
    dictGet local_ns "__builtins__" = Option.some (PyValue.dict builtinsDict) ∧
    builtinsDict.map Prod.fst = builtinNames ∧
    builtinNames.Nodup ∧
    builtinNames.length = 22 ∧
    builtinNames.length ≠ 21 :=
  ⟨rfl, by decide, by decide, by decide, by decide⟩
